import Mathlib

/-
Shallow embedding of the signal-and-state engine of `src/bot.py`.

Numeric prices and EMA values are modelled as rationals (Python floats),
epoch timestamps as integers (Python `int(time.time())`).  A Python dict
record may lack keys, so every field of a per-instrument record is wrapped
in an extra `Option` layer: `none` means the key is absent, `some v` means
the key is present with value `v` (which may itself be the JSON `null`,
i.e. an inner `none`).  Notification texts are modelled by the inductive
`Msg`, one constructor per distinct formatted message the bot produces,
carrying exactly the data the corresponding format string interpolates;
message-text equality in the dedup gate becomes `Msg` equality.
Filesystem effects of `save_state` (write temp file, then `os.replace`)
are modelled by an explicit list of atomic operations on a small
filesystem record, so that interruption after any prefix can be stated.
-/

namespace TrendBot

/-- The statically configured instrument list `ASSETS` of bot.py. -/
def ASSETS : List String :=
  ["BTC-USD", "ETH-USD", "SOL-USD", "AVAX-USD",
   "TUPRS.IS", "DOAS.IS", "THYAO.IS", "MAVI.IS", "ASELS.IS", "KONTR.IS",
   "ARDYZ.IS", "MIATK.IS", "MPARK.IS", "EKGYO.IS", "LOGO.IS", "SMRTG.IS",
   "GWIND.IS", "YEOTK.IS", "OYAKC.IS", "EREGL.IS", "DESA.IS", "BIMAS.IS",
   "TUKAS.IS",
   "GOOGL", "NVDA", "META", "INTC", "AAPL", "MSFT"]

def EMA_SHORT : Nat := 100

def EMA_LONG : Nat := 200

/-- `STOP_LOSS = 10` (percent). -/
def STOP_LOSS : ℚ := 10

/-- `TAKE_PROFIT = 40` (percent), the base take-profit target. -/
def TAKE_PROFIT : ℚ := 40

/-- `UPGRADED_TP = 100` (percent), the upgraded take-profit target. -/
def UPGRADED_TP : ℚ := 100

/-- `MIN_TELEGRAM_INTERVAL = 60` seconds, the per-instrument dedup window. -/
def MIN_TELEGRAM_INTERVAL : Int := 60

/-- One notification text, abstracted per format string of bot.py with the
interpolated data as arguments: `entrySignal` is `format_signal_log`
called from the buy branch (its entry price equals the current price and
its tp equals `TAKE_PROFIT`, so those are determined by the other
arguments), `takeProfit` is the inline take-profit f-string, `stopLoss`
is `format_stoploss_log`, `upgrade` is the inline upgrade f-string. -/
inductive Msg where
  | entrySignal (symbol : String) (price e100 e200 : ℚ)
  | takeProfit (symbol : String) (tp price entry : ℚ)
  | stopLoss (symbol : String) (price entry e100 e200 : ℚ)
  | upgrade (symbol : String)
deriving DecidableEq, Repr

/-- A `{"text": ..., "ts": ...}` record as stored under `last_msg`. -/
structure LastMsg where
  text : Msg
  ts : Int
deriving DecidableEq, Repr

/-- A per-instrument record (a Python dict).  The outer `Option` of every
field is key presence; the inner `Option` of `entry_price` and `last_msg`
is JSON `null`. -/
structure PInst where
  in_position : Option Bool
  entry_price : Option (Option ℚ)
  take_profit : Option ℚ
  last_msg : Option (Option LastMsg)
deriving DecidableEq, Repr

/-- The whole state dict: per-instrument records keyed by symbol, plus the
`global_last_msg` key (outer `Option` is key presence, inner is null). -/
structure BotState where
  entries : List (String × PInst)
  global_last_msg : Option (Option LastMsg)
deriving DecidableEq, Repr

/-- Python dict lookup `state.get(symbol)`: first entry with the key. -/
def lookupInst : List (String × PInst) → String → Option PInst
  | [], _ => none
  | (k, r) :: rest, sym => if k = sym then some r else lookupInst rest sym

/-- Python dict update `state[symbol] = f(state[symbol])` for a present key:
rewrites the record stored under `sym`, leaves every other key alone. -/
def updateRecord : List (String × PInst) → String → (PInst → PInst) → List (String × PInst)
  | [], _, _ => []
  | (k, r) :: rest, sym, f =>
      if k = sym then (k, f r) :: updateRecord rest sym f
      else (k, r) :: updateRecord rest sym f

/-- The default per-instrument record of `load_state`:
`{"in_position": False, "entry_price": None, "take_profit": TAKE_PROFIT, "last_msg": None}`. -/
def defaultInst : PInst :=
  { in_position := some false
    entry_price := some none
    take_profit := some TAKE_PROFIT
    last_msg := some none }

/-- The `default` dict built at the top of `load_state`: one default record
per configured asset and, notably, no `global_last_msg` key at all. -/
def defaultState : BotState :=
  { entries := ASSETS.map (fun s => (s, defaultInst))
    global_last_msg := none }

/-- The field-fill loop of `load_state`: every missing field of a present
record is replaced by its default; present fields are kept. -/
def fillInstFields (r : PInst) : PInst :=
  { in_position := some (r.in_position.getD false)
    entry_price := some (r.entry_price.getD none)
    take_profit := some (r.take_profit.getD TAKE_PROFIT)
    last_msg := some (r.last_msg.getD none) }

/-- Outcome of reading and parsing the state file: the file may be absent,
unreadable or unparseable, or parse to a document. -/
inductive FileStatus where
  | missing
  | corrupt
  | ok (doc : BotState)
deriving DecidableEq, Repr

/-- The pass of the merge loop of `load_state` over the records already in
the file: a record whose key is a configured asset gets its missing fields
filled; any other key is kept as is. -/
def fillAssetRecords : List (String × PInst) → List (String × PInst)
  | [] => []
  | (k, r) :: rest =>
      if k ∈ ASSETS then (k, fillInstFields r) :: fillAssetRecords rest
      else (k, r) :: fillAssetRecords rest

/-- The merge loop of `load_state` on a successfully parsed document:
records whose key is a configured asset get missing fields filled, records
missing entirely are appended with full defaults (dict insertion order:
existing keys first, then missing assets in `ASSETS` order), and a missing
`global_last_msg` key is set to `null`. -/
def mergeLoaded (doc : BotState) : BotState :=
  { entries :=
      fillAssetRecords doc.entries
      ++ (ASSETS.filter (fun a => lookupInst doc.entries a = none)).map
          (fun a => (a, defaultInst))
    global_last_msg := some (doc.global_last_msg.getD none) }

/-- `load_state` of bot.py: a missing file and a file whose open/parse
raises both return the bare `default` dict; a parsed file is merged. -/
def load_state : FileStatus → BotState
  | FileStatus.missing => defaultState
  | FileStatus.corrupt => defaultState
  | FileStatus.ok doc => mergeLoaded doc

/-- Content of one on-disk file: either a whole serialized document or the
debris of an interrupted write. -/
inductive FileContent where
  | whole (doc : BotState)
  | torn
deriving DecidableEq, Repr

/-- The two files `save_state` touches: the canonical `state.json` and the
temporary `state.json.tmp`. -/
structure FileSys where
  canonical : Option FileContent
  tmp : Option FileContent
deriving DecidableEq, Repr

/-- The atomic filesystem transitions of `save_state`, in program order:
the temp-file write starts (leaving a torn temp file if interrupted),
the temp-file write completes, and `os.replace` renames the temp file
over the canonical file in one step. -/
inductive SaveOp where
  | beginTmpWrite
  | finishTmpWrite
  | renameTmp
deriving DecidableEq, Repr

def saveOps : List SaveOp := [SaveOp.beginTmpWrite, SaveOp.finishTmpWrite, SaveOp.renameTmp]

def applySaveOp (doc : BotState) (fs : FileSys) : SaveOp → FileSys
  | SaveOp.beginTmpWrite => { fs with tmp := some FileContent.torn }
  | SaveOp.finishTmpWrite => { fs with tmp := some (FileContent.whole doc) }
  | SaveOp.renameTmp =>
      match fs.tmp with
      | some c => { canonical := some c, tmp := none }
      | none => fs

def runSaveOps (doc : BotState) (fs : FileSys) (ops : List SaveOp) : FileSys :=
  ops.foldl (applySaveOp doc) fs

/-- `save_state` run to completion: all three filesystem transitions. -/
def save_state (doc : BotState) (fs : FileSys) : FileSys :=
  runSaveOps doc fs saveOps

/-- How `load_state` classifies a canonical file found on disk. -/
def contentStatus : Option FileContent → FileStatus
  | none => FileStatus.missing
  | some FileContent.torn => FileStatus.corrupt
  | some (FileContent.whole d) => FileStatus.ok d

/-- `load_state` reading from the modelled filesystem. -/
def loadFromFS (fs : FileSys) : BotState :=
  load_state (contentStatus fs.canonical)

/-- The body of one `if ...: return False` of `should_send`: the candidate
last-message record exists, carries exactly this text, and is younger than
the window. -/
def sameRecent (m : Option LastMsg) (text : Msg) (now_ts window : Int) : Bool :=
  match m with
  | none => false
  | some r => decide (r.text = text) && decide (now_ts - r.ts < window)

/-- `should_send(state, symbol, text)` of bot.py, with `int(time.time())`
passed in as `now_ts`.  `state.get(symbol, {}).get("last_msg")` is the
double-`Option` collapse of the instrument record's `last_msg` field. -/
def should_send (state : BotState) (symbol : String) (text : Msg) (now_ts : Int) : Bool :=
  let symbol_last : Option LastMsg := ((lookupInst state.entries symbol).bind PInst.last_msg).join
  let global_last : Option LastMsg := state.global_last_msg.join
  if sameRecent symbol_last text now_ts MIN_TELEGRAM_INTERVAL then false
  else if sameRecent global_last text now_ts 10 then false
  else true

/-- `mark_sent(state, symbol, text)` of bot.py, minus its trailing
`save_state` call (persistence is recorded as an `Event.save` at the call
site): a missing symbol key first gets an empty record, then the symbol's
`last_msg` and the `global_last_msg` key are both set to the same
`{"text": text, "ts": now_ts}` record. -/
def mark_sent (state : BotState) (symbol : String) (text : Msg) (now_ts : Int) : BotState :=
  match lookupInst state.entries symbol with
  | some _ =>
      { entries := updateRecord state.entries symbol
          (fun r => { r with last_msg := some (some ⟨text, now_ts⟩) })
        global_last_msg := some (some ⟨text, now_ts⟩) }
  | none =>
      { entries := state.entries ++
          [(symbol, { in_position := none, entry_price := none, take_profit := none,
                      last_msg := some (some ⟨text, now_ts⟩) })]
        global_last_msg := some (some ⟨text, now_ts⟩) }

/-- Observable persistence/notification events of one cycle: a
`save_state` invocation, or an actual Telegram send. -/
inductive Event where
  | save
  | send (symbol : String) (m : Msg)
deriving DecidableEq, Repr

/-- `send_telegram(msg, state=state, symbol=symbol)` as called from
`check_signals`: with missing credentials it logs and returns untouched;
otherwise a message allowed by `should_send` is recorded by `mark_sent`
(which saves the state) and then posted.  `creds` is whether both
`TELEGRAM_TOKEN` and `TELEGRAM_CHAT_ID` are set. -/
def send_telegram (creds : Bool) (now_ts : Int) (state : BotState) (symbol : String)
    (m : Msg) : BotState × List Event :=
  if creds = false then (state, [])
  else if should_send state symbol m now_ts then
    (mark_sent state symbol m now_ts, [Event.save, Event.send symbol m])
  else (state, [])

/-- The market inputs one instrument's evaluation consumes: the current
close price, the previous and current 4h short/long EMA values, and the
previous and current daily EMA100/EMA200 values. -/
structure MarketData where
  price : ℚ
  prevShort : ℚ
  prevLong : ℚ
  curShort : ℚ
  curLong : ℚ
  prevE100 : ℚ
  prevE200 : ℚ
  curE100 : ℚ
  curE200 : ℚ
deriving DecidableEq, Repr

/-- The three consecutive field assignments of an entry or an exit:
`state[symbol]["in_position"] = ip`, `["entry_price"] = ep`,
`["take_profit"] = tp`. -/
def setPosFields (state : BotState) (sym : String) (ip : Bool) (ep : Option ℚ) (tp : ℚ) :
    BotState :=
  { state with
    entries :=
      updateRecord state.entries sym
        (fun r =>
          { r with
            in_position := some ip, entry_price := some ep, take_profit := some tp }) }

/-- The single assignment `state[symbol]["take_profit"] = tp` of the
upgrade branch. -/
def setTP (state : BotState) (sym : String) (tp : ℚ) : BotState :=
  { state with
    entries :=
      updateRecord state.entries sym (fun r => { r with take_profit := some tp }) }

/-- The per-symbol body of `check_signals`, after both downloads
succeeded with sufficient data.  A missing symbol key or a missing
`in_position`/`entry_price` key raises `KeyError`, and a `null`
`entry_price` raises `TypeError` in the comparison; each is caught by the
per-symbol handler before any mutation, leaving the state unchanged.
Branch structure and mutation order follow the source: an entry mutates
fields and then sends; an exit sends and then resets the fields; an
upgrade sets the new target and then sends. -/
def stepSymbol (creds : Bool) (now_ts : Int) (md : MarketData) (sym : String)
    (state : BotState) : BotState × List Event :=
  match lookupInst state.entries sym with
  | none => (state, [])
  | some rec =>
    match rec.in_position with
    | none => (state, [])
    | some inPos =>
      if inPos = false then
        if md.prevShort < md.prevLong ∧ md.curShort > md.curLong then
          send_telegram creds now_ts
            (setPosFields state sym true (some md.price) TAKE_PROFIT) sym
            (Msg.entrySignal sym md.price md.curE100 md.curE200)
        else (state, [])
      else
        match rec.entry_price with
        | none => (state, [])
        | some none => (state, [])
        | some (some entry) =>
          let tp := rec.take_profit.getD TAKE_PROFIT
          if md.price ≥ entry * (1 + tp / 100) then
            let sent := send_telegram creds now_ts state sym
              (Msg.takeProfit sym tp md.price entry)
            (setPosFields sent.fst sym false none TAKE_PROFIT, sent.snd)
          else if md.price ≤ entry * (1 - STOP_LOSS / 100) then
            let sent := send_telegram creds now_ts state sym
              (Msg.stopLoss sym md.price entry md.curE100 md.curE200)
            (setPosFields sent.fst sym false none TAKE_PROFIT, sent.snd)
          else
            if md.prevE100 < md.prevE200 ∧ md.curE100 > md.curE200 then
              if rec.take_profit ≠ some UPGRADED_TP then
                send_telegram creds now_ts (setTP state sym UPGRADED_TP) sym
                  (Msg.upgrade sym)
              else (state, [])
            else (state, [])

/-- The instrument loop of `check_signals`: `data sym = none` models an
empty or too-short download for `sym` (the `continue` branches), in which
case the symbol is skipped with no events.  Each instrument's events are
recorded against its symbol. -/
def runAssets (creds : Bool) (now_ts : Int) (data : String → Option MarketData) :
    List String → BotState → BotState × List (String × List Event)
  | [], state => (state, [])
  | sym :: rest, state =>
    match data sym with
    | none =>
        let done := runAssets creds now_ts data rest state
        (done.fst, (sym, []) :: done.snd)
    | some md =>
        let stepped := stepSymbol creds now_ts md sym state
        let done := runAssets creds now_ts data rest stepped.fst
        (done.fst, (sym, stepped.snd) :: done.snd)

/-- Result of one full `check_signals` cycle: the final in-memory state,
the events grouped per instrument in evaluation order, and the events at
cycle end. -/
structure CycleResult where
  state : BotState
  instrTraces : List (String × List Event)
  endEvents : List Event
deriving DecidableEq, Repr

/-- `check_signals()` of bot.py: load the state, evaluate every configured
asset in order, then `save_state(state)` once at the end. -/
def check_signals (creds : Bool) (now_ts : Int) (data : String → Option MarketData)
    (file : FileStatus) : CycleResult :=
  let state0 := load_state file
  let run := runAssets creds now_ts data ASSETS state0
  { state := run.fst, instrTraces := run.snd, endEvents := [Event.save] }

/-- Iterated evaluation cycles as seen by one symbol: each cycle brings
its own credentials flag, timestamp and market data. -/
def stepMany (sym : String) : List (Bool × Int × MarketData) → BotState → BotState
  | [], state => state
  | c :: rest, state => stepMany sym rest (stepSymbol c.fst c.snd.fst c.snd.snd sym state).fst

/-- The symbol's record holds an open position in `s`. -/
def openAt (s : BotState) (sym : String) : Prop :=
  (lookupInst s.entries sym).bind PInst.in_position = some true

/-- The symbol's record holds an open position whose take-profit target is
already the upgraded one. -/
def openUpg (s : BotState) (sym : String) : Prop :=
  (lookupInst s.entries sym).bind PInst.in_position = some true ∧
  (lookupInst s.entries sym).bind PInst.take_profit = some UPGRADED_TP

/-- Denial by the per-instrument dedup clause of `should_send`: the same
text is the instrument's recorded last message, younger than 60 seconds. -/
def instrumentDenies (state : BotState) (symbol : String) (text : Msg) (now_ts : Int) : Prop :=
  ∃ r, ((lookupInst state.entries symbol).bind PInst.last_msg).join = some r ∧
    r.text = text ∧ now_ts - r.ts < MIN_TELEGRAM_INTERVAL

/-- Denial by the global dedup clause of `should_send`: the same text is
the globally recorded last message, younger than 10 seconds. -/
def globalDenies (state : BotState) (text : Msg) (now_ts : Int) : Prop :=
  ∃ r, state.global_last_msg.join = some r ∧ r.text = text ∧ now_ts - r.ts < 10

/-- The data-model invariant of one record: `entry_price` is non-null
exactly when `in_position` is true (stated on whichever of the two keys
are present). -/
def posInv (r : PInst) : Prop :=
  (r.in_position = some true → ∃ x, r.entry_price = some (some x)) ∧
  (r.in_position = some false → r.entry_price = some none)

/-- Every field of the record is present. -/
def isFull (r : PInst) : Bool :=
  r.in_position.isSome && r.entry_price.isSome && r.take_profit.isSome && r.last_msg.isSome

/-- A well-formed snapshot: every record is fully populated, every
configured asset has a record, and the global key is present. -/
def wellFormed (s : BotState) : Bool :=
  s.entries.all (fun p => isFull p.snd) &&
  ASSETS.all (fun a => (lookupInst s.entries a).isSome) &&
  s.global_last_msg.isSome

/-- Market data that triggers nothing: flat EMAs on both series (strict
crossover comparisons all fail) and a price of 1. -/
def mdQuiet : MarketData :=
  { price := 1, prevShort := 1, prevLong := 1, curShort := 1, curLong := 1,
    prevE100 := 1, prevE200 := 1, curE100 := 1, curE200 := 1 }

/-- Market data for the open-position price scenarios: current price
`price`, no crossover on either series. -/
def mdPrice (price : ℚ) : MarketData :=
  { price := price, prevShort := 1, prevLong := 1, curShort := 1, curLong := 1,
    prevE100 := 1, prevE200 := 1, curE100 := 1, curE200 := 1 }

/-- An open-position record with the given entry price and take-profit
target and no recorded message. -/
def openRec (entry tp : ℚ) : PInst :=
  { in_position := some true, entry_price := some (some entry),
    take_profit := some tp, last_msg := some none }

/-- A one-instrument state for concrete scenarios. -/
def stateWith (sym : String) (r : PInst) : BotState :=
  { entries := [(sym, r)], global_last_msg := none }

/-- A two-instrument state with fresh default records, for the dedup
scenarios. -/
def stateAB : BotState :=
  { entries := [("A", defaultInst), ("B", defaultInst)], global_last_msg := none }

/-- Market data with a strict upward crossover on the fast series and flat
daily EMAs, at the given current price. -/
def mdCrossUp (price : ℚ) : MarketData :=
  { price := price, prevShort := 1, prevLong := 2, curShort := 3, curLong := 2,
    prevE100 := 1, prevE200 := 1, curE100 := 1, curE200 := 1 }

/-- Market data with no fast-series crossover but a strict upward crossover
of the daily trend EMAs, at the given current price. -/
def mdTrendUp (price : ℚ) : MarketData :=
  { price := price, prevShort := 1, prevLong := 1, curShort := 1, curLong := 1,
    prevE100 := 1, prevE200 := 2, curE100 := 3, curE200 := 2 }

/-- A stand-in message text for the dedup scenarios. -/
def msgX : Msg := Msg.upgrade "X"

/-- A second, different stand-in message text. -/
def msgY : Msg := Msg.upgrade "Y"

/-- A fully populated snapshot whose global record is present: the default
records of every configured asset plus a null global key. -/
def fullDefaultState : BotState :=
  { entries := ASSETS.map (fun s => (s, defaultInst)), global_last_msg := some none }

/-- The filesystem before anything was written. -/
def emptyFS : FileSys := { canonical := none, tmp := none }

end TrendBot

namespace TrendBot

theorem lookupInst_updateRecord_self (l : List (String × PInst)) (sym : String)
    (f : PInst → PInst) :
    lookupInst (updateRecord l sym f) sym = (lookupInst l sym).map f := by
  induction l with
  | nil => simp [updateRecord, lookupInst]
  | cons p rest ih =>
    obtain ⟨a, r⟩ := p
    by_cases h : a = sym
    · simp only [updateRecord, if_pos h]
      simp [lookupInst, h]
    · simp only [updateRecord, if_neg h]
      simp [lookupInst, h, ih]

theorem lookupInst_updateRecord_other (l : List (String × PInst)) (sym k : String)
    (f : PInst → PInst) (hk : k ≠ sym) :
    lookupInst (updateRecord l sym f) k = lookupInst l k := by
  induction l with
  | nil => simp [updateRecord, lookupInst]
  | cons p rest ih =>
    obtain ⟨a, r⟩ := p
    by_cases h : a = sym
    · have hp : a ≠ k := fun hh => hk (hh ▸ h)
      simp only [updateRecord, if_pos h]
      simp [lookupInst, hp, ih]
    · simp only [updateRecord, if_neg h]
      by_cases h2 : a = k
      · simp [lookupInst, h2]
      · simp [lookupInst, h2, ih]

theorem lookupInst_append (l1 l2 : List (String × PInst)) (sym : String) :
    lookupInst (l1 ++ l2) sym =
      match lookupInst l1 sym with
      | some r => some r
      | none => lookupInst l2 sym := by
  induction l1 with
  | nil => simp [lookupInst]
  | cons p rest ih =>
    obtain ⟨a, r⟩ := p
    by_cases h : a = sym
    · simp [lookupInst, h]
    · simpa [lookupInst, h] using ih

theorem lookupInst_map_const_mem (l : List String) (c : PInst) (sym : String) (h : sym ∈ l) :
    lookupInst (l.map (fun a => (a, c))) sym = some c := by
  induction l with
  | nil => cases h
  | cons a rest ih =>
    by_cases ha : a = sym
    · simp [lookupInst, ha]
    · have hmem : sym ∈ rest := by
        cases h with
        | head => exact absurd rfl ha
        | tail _ hm => exact hm
      simpa [lookupInst, ha] using ih hmem

end TrendBot

namespace TrendBot

theorem mark_sent_global (s : BotState) (sym : String) (m : Msg) (t : Int) :
    (mark_sent s sym m t).global_last_msg = some (some ⟨m, t⟩) := by
  unfold mark_sent
  cases lookupInst s.entries sym <;> rfl

theorem mark_sent_lookup_other (s : BotState) (sym : String) (m : Msg) (t : Int)
    (k : String) (hk : k ≠ sym) :
    lookupInst (mark_sent s sym m t).entries k = lookupInst s.entries k := by
  unfold mark_sent
  cases h : lookupInst s.entries sym with
  | some r => simp [lookupInst_updateRecord_other _ _ _ _ hk]
  | none =>
    have hsk : ¬(sym = k) := fun hh => hk hh.symm
    rw [lookupInst_append]
    cases lookupInst s.entries k <;> simp [lookupInst, hsk]

theorem mark_sent_lookup_self_last (s : BotState) (sym : String) (m : Msg) (t : Int) :
    (lookupInst (mark_sent s sym m t).entries sym).bind PInst.last_msg =
      some (some ⟨m, t⟩) := by
  unfold mark_sent
  cases h : lookupInst s.entries sym with
  | some r => simp [lookupInst_updateRecord_self, h]
  | none =>
    rw [lookupInst_append]
    simp [h, lookupInst]

theorem mark_sent_lookup_self_pos (s : BotState) (sym : String) (m : Msg) (t : Int) :
    (lookupInst (mark_sent s sym m t).entries sym).bind PInst.in_position =
        (lookupInst s.entries sym).bind PInst.in_position ∧
    (lookupInst (mark_sent s sym m t).entries sym).bind PInst.entry_price =
        (lookupInst s.entries sym).bind PInst.entry_price ∧
    (lookupInst (mark_sent s sym m t).entries sym).bind PInst.take_profit =
        (lookupInst s.entries sym).bind PInst.take_profit := by
  unfold mark_sent
  cases h : lookupInst s.entries sym with
  | some r => simp [lookupInst_updateRecord_self, h]
  | none =>
    rw [lookupInst_append]
    simp [h, lookupInst]

theorem send_telegram_fst_lookup_self (creds : Bool) (t : Int) (s : BotState)
    (sym : String) (m : Msg) (r : PInst) (h : lookupInst s.entries sym = some r) :
    ∃ r2, lookupInst (send_telegram creds t s sym m).fst.entries sym = some r2 ∧
      r2.in_position = r.in_position ∧ r2.entry_price = r.entry_price ∧
      r2.take_profit = r.take_profit := by
  unfold send_telegram
  by_cases hc : creds = false
  · simp only [hc, if_pos rfl]
    exact ⟨r, h, rfl, rfl, rfl⟩
  · simp only [hc, if_neg hc]
    by_cases hs : should_send s sym m t
    · simp only [hs, if_pos]
      refine ⟨{ r with last_msg := some (some ⟨m, t⟩) }, ?_, rfl, rfl, rfl⟩
      unfold mark_sent
      rw [h]
      simp [lookupInst_updateRecord_self, h]
    · simp only [hs, if_neg]
      exact ⟨r, h, rfl, rfl, rfl⟩

theorem send_telegram_events (creds : Bool) (t : Int) (s : BotState)
    (sym : String) (m : Msg) :
    (send_telegram creds t s sym m).snd = [] ∨
    (send_telegram creds t s sym m).snd = [Event.save, Event.send sym m] := by
  unfold send_telegram
  by_cases hc : creds = false
  · simp [hc]
  · by_cases hs : should_send s sym m t <;> simp [hc, hs]

end TrendBot

namespace TrendBot

theorem stepSymbol_no_record (creds : Bool) (t : Int) (md : MarketData) (sym : String)
    (state : BotState) (h : lookupInst state.entries sym = none) :
    stepSymbol creds t md sym state = (state, []) := by
  simp [stepSymbol, h]

theorem stepSymbol_no_in_position (creds : Bool) (t : Int) (md : MarketData) (sym : String)
    (state : BotState) (rec : PInst) (h1 : lookupInst state.entries sym = some rec)
    (h2 : rec.in_position = none) :
    stepSymbol creds t md sym state = (state, []) := by
  simp [stepSymbol, h1, h2]

theorem stepSymbol_flat_cross (creds : Bool) (t : Int) (md : MarketData) (sym : String)
    (state : BotState) (rec : PInst) (h1 : lookupInst state.entries sym = some rec)
    (h2 : rec.in_position = some false)
    (hc : md.prevShort < md.prevLong ∧ md.curShort > md.curLong) :
    stepSymbol creds t md sym state =
      send_telegram creds t (setPosFields state sym true (some md.price) TAKE_PROFIT) sym
        (Msg.entrySignal sym md.price md.curE100 md.curE200) := by
  simp [stepSymbol, h1, h2, hc.1, hc.2]

theorem stepSymbol_flat_nocross (creds : Bool) (t : Int) (md : MarketData) (sym : String)
    (state : BotState) (rec : PInst) (h1 : lookupInst state.entries sym = some rec)
    (h2 : rec.in_position = some false)
    (hc : ¬(md.prevShort < md.prevLong ∧ md.curShort > md.curLong)) :
    stepSymbol creds t md sym state = (state, []) := by
  simp [stepSymbol, h1, h2, hc]

theorem stepSymbol_open_no_entry (creds : Bool) (t : Int) (md : MarketData) (sym : String)
    (state : BotState) (rec : PInst) (h1 : lookupInst state.entries sym = some rec)
    (h2 : rec.in_position = some true)
    (h3 : rec.entry_price = none ∨ rec.entry_price = some none) :
    stepSymbol creds t md sym state = (state, []) := by
  cases h3 with
  | inl h => simp [stepSymbol, h1, h2, h]
  | inr h => simp [stepSymbol, h1, h2, h]

theorem stepSymbol_open_tp (creds : Bool) (t : Int) (md : MarketData) (sym : String)
    (state : BotState) (rec : PInst) (entry tp : ℚ)
    (h1 : lookupInst state.entries sym = some rec)
    (h2 : rec.in_position = some true)
    (h3 : rec.entry_price = some (some entry))
    (h4 : rec.take_profit.getD TAKE_PROFIT = tp)
    (hc : md.price ≥ entry * (1 + tp / 100)) :
    stepSymbol creds t md sym state =
      ((setPosFields
          (send_telegram creds t state sym (Msg.takeProfit sym tp md.price entry)).fst
          sym false none TAKE_PROFIT),
        (send_telegram creds t state sym (Msg.takeProfit sym tp md.price entry)).snd) := by
  simp [stepSymbol, h1, h2, h3, h4, hc]

theorem stepSymbol_open_sl (creds : Bool) (t : Int) (md : MarketData) (sym : String)
    (state : BotState) (rec : PInst) (entry tp : ℚ)
    (h1 : lookupInst state.entries sym = some rec)
    (h2 : rec.in_position = some true)
    (h3 : rec.entry_price = some (some entry))
    (h4 : rec.take_profit.getD TAKE_PROFIT = tp)
    (hc1 : ¬(md.price ≥ entry * (1 + tp / 100)))
    (hc2 : md.price ≤ entry * (1 - STOP_LOSS / 100)) :
    stepSymbol creds t md sym state =
      ((setPosFields
          (send_telegram creds t state sym
            (Msg.stopLoss sym md.price entry md.curE100 md.curE200)).fst
          sym false none TAKE_PROFIT),
        (send_telegram creds t state sym
          (Msg.stopLoss sym md.price entry md.curE100 md.curE200)).snd) := by
  simp [stepSymbol, h1, h2, h3, h4, hc1, hc2]

theorem stepSymbol_open_upgrade (creds : Bool) (t : Int) (md : MarketData) (sym : String)
    (state : BotState) (rec : PInst) (entry tp : ℚ)
    (h1 : lookupInst state.entries sym = some rec)
    (h2 : rec.in_position = some true)
    (h3 : rec.entry_price = some (some entry))
    (h4 : rec.take_profit.getD TAKE_PROFIT = tp)
    (hc1 : ¬(md.price ≥ entry * (1 + tp / 100)))
    (hc2 : ¬(md.price ≤ entry * (1 - STOP_LOSS / 100)))
    (hc3 : md.prevE100 < md.prevE200 ∧ md.curE100 > md.curE200)
    (hne : rec.take_profit ≠ some UPGRADED_TP) :
    stepSymbol creds t md sym state =
      send_telegram creds t (setTP state sym UPGRADED_TP) sym (Msg.upgrade sym) := by
  simp [stepSymbol, h1, h2, h3, h4, hc1, hc2, hc3.1, hc3.2, hne]

theorem stepSymbol_open_hold (creds : Bool) (t : Int) (md : MarketData) (sym : String)
    (state : BotState) (rec : PInst) (entry tp : ℚ)
    (h1 : lookupInst state.entries sym = some rec)
    (h2 : rec.in_position = some true)
    (h3 : rec.entry_price = some (some entry))
    (h4 : rec.take_profit.getD TAKE_PROFIT = tp)
    (hc1 : ¬(md.price ≥ entry * (1 + tp / 100)))
    (hc2 : ¬(md.price ≤ entry * (1 - STOP_LOSS / 100)))
    (hc3 : ¬(md.prevE100 < md.prevE200 ∧ md.curE100 > md.curE200) ∨
      rec.take_profit = some UPGRADED_TP) :
    stepSymbol creds t md sym state = (state, []) := by
  cases hc3 with
  | inl h => simp [stepSymbol, h1, h2, h3, h4, hc1, hc2, h]
  | inr h =>
    have htp : tp = UPGRADED_TP := by
      rw [h] at h4
      simpa using h4.symm
    subst htp
    simp [stepSymbol, h1, h2, h3, h4, hc1, hc2, h]

end TrendBot

namespace TrendBot

theorem sameRecent_true_iff (m : Option LastMsg) (text : Msg) (now_ts window : Int) :
    sameRecent m text now_ts window = true ↔
      ∃ r, m = some r ∧ r.text = text ∧ now_ts - r.ts < window := by
  cases m <;> simp [sameRecent]

theorem should_send_false_char (state : BotState) (sym : String) (text : Msg) (now_ts : Int) :
    should_send state sym text now_ts = false ↔
      (instrumentDenies state sym text now_ts ∨ globalDenies state text now_ts) := by
  have hA := sameRecent_true_iff (((lookupInst state.entries sym).bind PInst.last_msg).join)
    text now_ts MIN_TELEGRAM_INTERVAL
  have hB := sameRecent_true_iff (state.global_last_msg.join) text now_ts 10
  have hdef : should_send state sym text now_ts =
      (if sameRecent (((lookupInst state.entries sym).bind PInst.last_msg).join)
          text now_ts MIN_TELEGRAM_INTERVAL then false
       else if sameRecent (state.global_last_msg.join) text now_ts 10 then false
       else true) := rfl
  rw [hdef]
  unfold instrumentDenies globalDenies
  rw [← hA, ← hB]
  cases h1 : sameRecent (((lookupInst state.entries sym).bind PInst.last_msg).join)
      text now_ts MIN_TELEGRAM_INTERVAL <;>
    cases h2 : sameRecent (state.global_last_msg.join) text now_ts 10 <;>
      simp [h1, h2]

theorem should_send_true_char (state : BotState) (sym : String) (text : Msg) (now_ts : Int) :
    should_send state sym text now_ts = true ↔
      ¬(instrumentDenies state sym text now_ts ∨ globalDenies state text now_ts) := by
  rw [← should_send_false_char]
  cases h : should_send state sym text now_ts <;> simp

/-- Claim C4: `should_send` returns false exactly when the same text is the
instrument's last recorded message younger than 60 seconds, or the globally
last recorded message younger than 10 seconds; concretely, a repeat for the
same instrument is denied at t+30s and allowed at t+61s, and a repeat from
another instrument is denied at t+5s and allowed at t+11s. -/
theorem C4_dedup_gate :
    (∀ (state : BotState) (sym : String) (text : Msg) (now_ts : Int),
      should_send state sym text now_ts = false ↔
        (instrumentDenies state sym text now_ts ∨ globalDenies state text now_ts)) ∧
    (∀ t : Int,
      should_send (mark_sent stateAB "A" msgX t) "A" msgX (t + 30) = false ∧
      should_send (mark_sent stateAB "A" msgX t) "A" msgX (t + 61) = true ∧
      should_send (mark_sent stateAB "A" msgY t) "B" msgY (t + 5) = false ∧
      should_send (mark_sent stateAB "A" msgY t) "B" msgY (t + 11) = true) := by
  refine ⟨should_send_false_char, ?_⟩
  intro t
  have hAjoin : ((lookupInst (mark_sent stateAB "A" msgX t).entries "A").bind
      PInst.last_msg).join = some ⟨msgX, t⟩ := by
    rw [mark_sent_lookup_self_last]
    rfl
  have hAglob : ((mark_sent stateAB "A" msgX t).global_last_msg).join = some ⟨msgX, t⟩ := by
    rw [mark_sent_global]
    rfl
  have hYglob : ((mark_sent stateAB "A" msgY t).global_last_msg).join = some ⟨msgY, t⟩ := by
    rw [mark_sent_global]
    rfl
  have hBlook : lookupInst (mark_sent stateAB "A" msgY t).entries "B" =
      lookupInst stateAB.entries "B" :=
    mark_sent_lookup_other stateAB "A" msgY t "B" (by decide)
  refine ⟨?_, ?_, ?_, ?_⟩
  · refine (should_send_false_char _ _ _ _).mpr
      (Or.inl ⟨⟨msgX, t⟩, hAjoin, rfl, ?_⟩)
    show t + 30 - t < (60 : Int)
    omega
  · refine (should_send_true_char _ _ _ _).mpr ?_
    rintro (⟨r, hr, _, hlt⟩ | ⟨r, hr, _, hlt⟩)
    · rw [hAjoin] at hr
      obtain rfl := Option.some_inj.mp hr
      have hlt2 : t + 61 - t < (60 : Int) := hlt
      omega
    · rw [hAglob] at hr
      obtain rfl := Option.some_inj.mp hr
      have hlt2 : t + 61 - t < (10 : Int) := hlt
      omega
  · refine (should_send_false_char _ _ _ _).mpr
      (Or.inr ⟨⟨msgY, t⟩, hYglob, rfl, ?_⟩)
    show t + 5 - t < (10 : Int)
    omega
  · refine (should_send_true_char _ _ _ _).mpr ?_
    rintro (⟨r, hr, _, hlt⟩ | ⟨r, hr, _, hlt⟩)
    · rw [hBlook] at hr
      have hnone : ((lookupInst stateAB.entries "B").bind PInst.last_msg).join =
          (none : Option LastMsg) := rfl
      rw [hnone] at hr
      cases hr
    · rw [hYglob] at hr
      obtain rfl := Option.some_inj.mp hr
      have hlt2 : t + 11 - t < (10 : Int) := hlt
      omega

/-- Claim C10: `mark_sent` sets the instrument's `last_msg` and the global
record to the same text/timestamp record and changes nothing else: the
instrument's position fields are untouched and every other key's record is
untouched. -/
theorem C10_mark_sent_frame :
    ∀ (s : BotState) (sym : String) (m : Msg) (t : Int),
      (mark_sent s sym m t).global_last_msg = some (some ⟨m, t⟩) ∧
      (lookupInst (mark_sent s sym m t).entries sym).bind PInst.last_msg =
        some (some ⟨m, t⟩) ∧
      (lookupInst (mark_sent s sym m t).entries sym).bind PInst.in_position =
        (lookupInst s.entries sym).bind PInst.in_position ∧
      (lookupInst (mark_sent s sym m t).entries sym).bind PInst.entry_price =
        (lookupInst s.entries sym).bind PInst.entry_price ∧
      (lookupInst (mark_sent s sym m t).entries sym).bind PInst.take_profit =
        (lookupInst s.entries sym).bind PInst.take_profit ∧
      (∀ k, k ≠ sym → lookupInst (mark_sent s sym m t).entries k = lookupInst s.entries k) := by
  intro s sym m t
  obtain ⟨hip, hep, htp⟩ := mark_sent_lookup_self_pos s sym m t
  exact ⟨mark_sent_global s sym m t, mark_sent_lookup_self_last s sym m t, hip, hep, htp,
    fun k hk => mark_sent_lookup_other s sym m t k hk⟩

theorem C10_mark_sent_frame_witness :
    lookupInst (mark_sent stateAB "A" msgX 5).entries "B" = lookupInst stateAB.entries "B" :=
  (C10_mark_sent_frame stateAB "A" msgX 5).2.2.2.2.2 "B" (by decide)

/-- Claim C8: `save_state` serializes the whole snapshot to a temporary
file and installs it over the canonical file with one rename, so
interruption after any prefix of its filesystem operations leaves the
canonical file holding either the previous content or the new whole
document — never a torn write — and the completed save installs the new
document. -/
theorem C8_save_atomic :
    ∀ (doc : BotState) (fs : FileSys) (k : Nat),
      ((runSaveOps doc fs (saveOps.take k)).canonical = fs.canonical ∨
        (runSaveOps doc fs (saveOps.take k)).canonical = some (FileContent.whole doc)) ∧
      (fs.canonical ≠ some FileContent.torn →
        (runSaveOps doc fs (saveOps.take k)).canonical ≠ some FileContent.torn) ∧
      (save_state doc fs).canonical = some (FileContent.whole doc) := by
  intro doc fs k
  have hmain : (runSaveOps doc fs (saveOps.take k)).canonical = fs.canonical ∨
      (runSaveOps doc fs (saveOps.take k)).canonical = some (FileContent.whole doc) := by
    match k with
    | 0 => exact Or.inl rfl
    | 1 => exact Or.inl rfl
    | 2 => exact Or.inl rfl
    | (n+3) =>
      right
      have htake : saveOps.take (n + 3) = saveOps := by simp [saveOps]
      rw [htake]
      rfl
  refine ⟨hmain, ?_, rfl⟩
  intro hne
  cases hmain with
  | inl h => rw [h]; exact hne
  | inr h => simp [h]

theorem C8_save_atomic_witness :
    (runSaveOps defaultState emptyFS (saveOps.take 2)).canonical ≠ some FileContent.torn :=
  (C8_save_atomic defaultState emptyFS 2).2.1 (by simp [emptyFS])

end TrendBot

namespace TrendBot

theorem lookupInst_setPosFields_self (state : BotState) (sym : String) (ip : Bool)
    (ep : Option ℚ) (tp : ℚ) :
    lookupInst (setPosFields state sym ip ep tp).entries sym =
      (lookupInst state.entries sym).map
        (fun r => { r with in_position := some ip, entry_price := some ep, take_profit := some tp }) := by
  simp [setPosFields, lookupInst_updateRecord_self]

theorem lookupInst_setTP_self (state : BotState) (sym : String) (tp : ℚ) :
    lookupInst (setTP state sym tp).entries sym =
      (lookupInst state.entries sym).map (fun r => { r with take_profit := some tp }) := by
  simp [setTP, lookupInst_updateRecord_self]

/-- Claim C2: from a FLAT position, an entry happens exactly on a strict
upward crossover of the fast-series EMAs (equality on either bar falsifies
the strict inequalities, so it never triggers); the entry sets
`in_position` to true, `entry_price` to the current close and
`take_profit` to the base target, and without a crossover the evaluation
changes nothing at all. -/
theorem C2_flat_entry :
    ∀ (creds : Bool) (t : Int) (md : MarketData) (sym : String) (state : BotState)
      (rec : PInst),
      lookupInst state.entries sym = some rec →
      rec.in_position = some false →
      ((md.prevShort < md.prevLong ∧ md.curShort > md.curLong →
          ∃ r2, lookupInst (stepSymbol creds t md sym state).fst.entries sym = some r2 ∧
            r2.in_position = some true ∧ r2.entry_price = some (some md.price) ∧
            r2.take_profit = some TAKE_PROFIT) ∧
        (¬(md.prevShort < md.prevLong ∧ md.curShort > md.curLong) →
          stepSymbol creds t md sym state = (state, []))) := by
  intro creds t md sym state rec h1 h2
  refine ⟨?_, fun hc => stepSymbol_flat_nocross creds t md sym state rec h1 h2 hc⟩
  intro hc
  rw [stepSymbol_flat_cross creds t md sym state rec h1 h2 hc]
  have hset : lookupInst (setPosFields state sym true (some md.price) TAKE_PROFIT).entries sym = some { rec with in_position := some true, entry_price := some (some md.price), take_profit := some TAKE_PROFIT } := by
    rw [lookupInst_setPosFields_self, h1]
    rfl
  obtain ⟨r2, hr2, hip, hep, htp⟩ :=
    send_telegram_fst_lookup_self creds t _ sym
      (Msg.entrySignal sym md.price md.curE100 md.curE200) _ hset
  exact ⟨r2, hr2, by rw [hip], by rw [hep], by rw [htp]⟩

theorem C2_flat_entry_witness :
    ∃ r2, lookupInst
        (stepSymbol false 0 (mdCrossUp 7) "X" (stateWith "X" defaultInst)).fst.entries "X" =
          some r2 ∧
      r2.in_position = some true ∧ r2.entry_price = some (some 7) ∧
      r2.take_profit = some TAKE_PROFIT :=
  ((C2_flat_entry false 0 (mdCrossUp 7) "X" (stateWith "X" defaultInst) defaultInst
      rfl rfl).1 (by norm_num [mdCrossUp]))

end TrendBot

namespace TrendBot

/-- Claim C1: with an open position, one evaluation applies at most one
transition, checked in order take-profit, stop-loss, upgrade: the
take-profit exit fires exactly when price reaches `entry*(1+tp/100)`,
otherwise the stop-loss exit fires exactly when price is at or below
`entry*(1-STOP_LOSS/100)`, otherwise only the upgrade may change the
record; concretely with entry 100 and tp 40, price 140 exits by
take-profit, price 90 exits by stop-loss, and price 139.99 with no
crossover leaves the position unchanged. -/
theorem C1_open_transitions :
    (∀ (creds : Bool) (t : Int) (md : MarketData) (sym : String) (state : BotState)
      (rec : PInst) (entry tp : ℚ),
      lookupInst state.entries sym = some rec →
      rec.in_position = some true →
      rec.entry_price = some (some entry) →
      rec.take_profit = some tp →
      ((md.price ≥ entry * (1 + tp / 100) →
          (∃ r2, lookupInst (stepSymbol creds t md sym state).fst.entries sym = some r2 ∧
            r2.in_position = some false ∧ r2.entry_price = some none ∧
            r2.take_profit = some TAKE_PROFIT) ∧
          ((stepSymbol creds t md sym state).snd = [] ∨
            (stepSymbol creds t md sym state).snd =
              [Event.save, Event.send sym (Msg.takeProfit sym tp md.price entry)])) ∧
        (¬(md.price ≥ entry * (1 + tp / 100)) → md.price ≤ entry * (1 - STOP_LOSS / 100) →
          (∃ r2, lookupInst (stepSymbol creds t md sym state).fst.entries sym = some r2 ∧
            r2.in_position = some false ∧ r2.entry_price = some none ∧
            r2.take_profit = some TAKE_PROFIT) ∧
          ((stepSymbol creds t md sym state).snd = [] ∨
            (stepSymbol creds t md sym state).snd =
              [Event.save, Event.send sym (Msg.stopLoss sym md.price entry md.curE100 md.curE200)])) ∧
        (¬(md.price ≥ entry * (1 + tp / 100)) → ¬(md.price ≤ entry * (1 - STOP_LOSS / 100)) →
          ∃ r2, lookupInst (stepSymbol creds t md sym state).fst.entries sym = some r2 ∧
            r2.in_position = some true ∧ r2.entry_price = some (some entry) ∧
            (r2.take_profit = some tp ∨ r2.take_profit = some UPGRADED_TP)))) ∧
    ((stepSymbol true 1000 (mdPrice 140) "BTC-USD" (stateWith "BTC-USD" (openRec 100 40))).snd =
        [Event.save, Event.send "BTC-USD" (Msg.takeProfit "BTC-USD" 40 140 100)] ∧
      lookupInst (stepSymbol true 1000 (mdPrice 140) "BTC-USD"
          (stateWith "BTC-USD" (openRec 100 40))).fst.entries "BTC-USD" =
        some { in_position := some false, entry_price := some none, take_profit := some TAKE_PROFIT, last_msg := some (some ⟨Msg.takeProfit "BTC-USD" 40 140 100, 1000⟩) } ∧
      (stepSymbol true 1000 (mdPrice 90) "BTC-USD" (stateWith "BTC-USD" (openRec 100 40))).snd =
        [Event.save, Event.send "BTC-USD" (Msg.stopLoss "BTC-USD" 90 100 1 1)] ∧
      lookupInst (stepSymbol true 1000 (mdPrice 90) "BTC-USD"
          (stateWith "BTC-USD" (openRec 100 40))).fst.entries "BTC-USD" =
        some { in_position := some false, entry_price := some none, take_profit := some TAKE_PROFIT, last_msg := some (some ⟨Msg.stopLoss "BTC-USD" 90 100 1 1, 1000⟩) } ∧
      stepSymbol true 1000 (mdPrice (13999/100)) "BTC-USD"
          (stateWith "BTC-USD" (openRec 100 40)) =
        (stateWith "BTC-USD" (openRec 100 40), [])) := by
  constructor
  · intro creds t md sym state rec entry tp h1 h2 h3 h4
    have h4g : rec.take_profit.getD TAKE_PROFIT = tp := by rw [h4]; rfl
    refine ⟨?_, ?_, ?_⟩
    · intro hc
      rw [stepSymbol_open_tp creds t md sym state rec entry tp h1 h2 h3 h4g hc]
      obtain ⟨r1, hr1, hip, hep, htp⟩ :=
        send_telegram_fst_lookup_self creds t state sym
          (Msg.takeProfit sym tp md.price entry) rec h1
      constructor
      · refine ⟨{ r1 with in_position := some false, entry_price := some none, take_profit := some TAKE_PROFIT }, ?_, rfl, rfl, rfl⟩
        rw [lookupInst_setPosFields_self, hr1]
        rfl
      · exact send_telegram_events creds t state sym (Msg.takeProfit sym tp md.price entry)
    · intro hc1 hc2
      rw [stepSymbol_open_sl creds t md sym state rec entry tp h1 h2 h3 h4g hc1 hc2]
      obtain ⟨r1, hr1, hip, hep, htp⟩ :=
        send_telegram_fst_lookup_self creds t state sym
          (Msg.stopLoss sym md.price entry md.curE100 md.curE200) rec h1
      constructor
      · refine ⟨{ r1 with in_position := some false, entry_price := some none, take_profit := some TAKE_PROFIT }, ?_, rfl, rfl, rfl⟩
        rw [lookupInst_setPosFields_self, hr1]
        rfl
      · exact send_telegram_events creds t state sym
          (Msg.stopLoss sym md.price entry md.curE100 md.curE200)
    · intro hc1 hc2
      by_cases hcross : md.prevE100 < md.prevE200 ∧ md.curE100 > md.curE200
      · by_cases hup : tp = UPGRADED_TP
        · rw [stepSymbol_open_hold creds t md sym state rec entry tp h1 h2 h3 h4g hc1 hc2
            (Or.inr (by rw [h4, hup]))]
          exact ⟨rec, h1, h2, h3, Or.inl h4⟩
        · have hne : rec.take_profit ≠ some UPGRADED_TP := by
            rw [h4]
            intro hcontra
            exact hup (Option.some_inj.mp hcontra)
          rw [stepSymbol_open_upgrade creds t md sym state rec entry tp h1 h2 h3 h4g hc1 hc2
            hcross hne]
          have hsetTP : lookupInst (setTP state sym UPGRADED_TP).entries sym = some { rec with take_profit := some UPGRADED_TP } := by
            rw [lookupInst_setTP_self, h1]
            rfl
          obtain ⟨r2, hr2, hip, hep, htp⟩ :=
            send_telegram_fst_lookup_self creds t (setTP state sym UPGRADED_TP) sym
              (Msg.upgrade sym) _ hsetTP
          refine ⟨r2, hr2, ?_, ?_, Or.inr ?_⟩
          · rw [hip]; exact h2
          · rw [hep]; exact h3
          · rw [htp]
      · rw [stepSymbol_open_hold creds t md sym state rec entry tp h1 h2 h3 h4g hc1 hc2
          (Or.inl hcross)]
        exact ⟨rec, h1, h2, h3, Or.inl h4⟩
  · have hTP := stepSymbol_open_tp true 1000 (mdPrice 140) "BTC-USD"
      (stateWith "BTC-USD" (openRec 100 40)) (openRec 100 40) 100 40 rfl rfl rfl rfl
      (by norm_num [mdPrice])
    have hSL := stepSymbol_open_sl true 1000 (mdPrice 90) "BTC-USD"
      (stateWith "BTC-USD" (openRec 100 40)) (openRec 100 40) 100 40 rfl rfl rfl rfl
      (by norm_num [mdPrice]) (by norm_num [mdPrice, STOP_LOSS])
    have hHold := stepSymbol_open_hold true 1000 (mdPrice (13999/100)) "BTC-USD"
      (stateWith "BTC-USD" (openRec 100 40)) (openRec 100 40) 100 40 rfl rfl rfl rfl
      (by norm_num [mdPrice]) (by norm_num [mdPrice, STOP_LOSS])
      (Or.inl (by norm_num [mdPrice]))
    refine ⟨?_, ?_, ?_, ?_, ?_⟩
    · rw [hTP]
      rfl
    · rw [hTP]
      rfl
    · rw [hSL]
      rfl
    · rw [hSL]
      rfl
    · have hgen : stepSymbol true 1000 (mdPrice (13999/100)) "BTC-USD"
          (stateWith "BTC-USD" (openRec 100 40)) =
          stepSymbol true 1000 (mdPrice (13999 / 100)) "BTC-USD"
            (stateWith "BTC-USD" (openRec 100 40)) := rfl
      rw [hgen, hHold]

theorem C1_open_transitions_witness :
    ∃ r2, lookupInst (stepSymbol false 0 (mdPrice 150) "Z"
        (stateWith "Z" (openRec 100 40))).fst.entries "Z" = some r2 ∧
      r2.in_position = some false ∧ r2.entry_price = some none ∧
      r2.take_profit = some TAKE_PROFIT :=
  ((C1_open_transitions.1 false 0 (mdPrice 150) "Z" (stateWith "Z" (openRec 100 40))
      (openRec 100 40) 100 40 rfl rfl rfl rfl).1 (by norm_num [mdPrice])).1

end TrendBot

namespace TrendBot

theorem option_bool_clash {a : Option Bool} (h1 : a = some true) (h2 : a = some false) :
    False := by
  rw [h1] at h2
  exact Bool.noConfusion (Option.some_inj.mp h2)

/-- Claim C3: every state-machine evaluation preserves the record
invariant — `entry_price` is non-null exactly when `in_position` is true —
and whenever an evaluation closes an open position (both exit kinds) it
resets `take_profit` to the base target. -/
theorem C3_invariant_preserved :
    ∀ (creds : Bool) (t : Int) (md : MarketData) (sym : String) (state : BotState)
      (rec : PInst),
      lookupInst state.entries sym = some rec →
      posInv rec →
      ∀ r2, lookupInst (stepSymbol creds t md sym state).fst.entries sym = some r2 →
        posInv r2 ∧
        (rec.in_position = some true → r2.in_position = some false →
          r2.take_profit = some TAKE_PROFIT) := by
  intro creds t md sym state rec h1 hinv r2 hr2
  cases hip : rec.in_position with
  | none =>
    rw [stepSymbol_no_in_position creds t md sym state rec h1 hip, h1] at hr2
    obtain rfl := Option.some_inj.mp hr2
    exact ⟨hinv, fun hopen _ => Option.noConfusion hopen⟩
  | some inPos =>
    cases inPos with
    | false =>
      by_cases hc : md.prevShort < md.prevLong ∧ md.curShort > md.curLong
      · rw [stepSymbol_flat_cross creds t md sym state rec h1 hip hc] at hr2
        have hset : lookupInst (setPosFields state sym true (some md.price) TAKE_PROFIT).entries sym = some { rec with in_position := some true, entry_price := some (some md.price), take_profit := some TAKE_PROFIT } := by
          rw [lookupInst_setPosFields_self, h1]
          rfl
        obtain ⟨r1, hr1, hip1, hep1, htp1⟩ :=
          send_telegram_fst_lookup_self creds t _ sym
            (Msg.entrySignal sym md.price md.curE100 md.curE200) _ hset
        rw [hr1] at hr2
        obtain rfl := Option.some_inj.mp hr2
        have hip1L : r1.in_position = some true := hip1
        have hep1L : r1.entry_price = some (some md.price) := hep1
        exact ⟨⟨fun _ => ⟨md.price, hep1L⟩,
          fun hfalse => (option_bool_clash hip1L hfalse).elim⟩,
          fun hopen _ => Bool.noConfusion (Option.some_inj.mp hopen)⟩
      · rw [stepSymbol_flat_nocross creds t md sym state rec h1 hip hc, h1] at hr2
        obtain rfl := Option.some_inj.mp hr2
        exact ⟨hinv, fun hopen _ => Bool.noConfusion (Option.some_inj.mp hopen)⟩
    | true =>
      obtain ⟨x, hx⟩ := hinv.1 hip
      by_cases hc1 : md.price ≥ x * (1 + (rec.take_profit.getD TAKE_PROFIT) / 100)
      · rw [stepSymbol_open_tp creds t md sym state rec x _ h1 hip hx rfl hc1] at hr2
        obtain ⟨r1, hr1, hip1, hep1, htp1⟩ :=
          send_telegram_fst_lookup_self creds t state sym
            (Msg.takeProfit sym (rec.take_profit.getD TAKE_PROFIT) md.price x) rec h1
        rw [lookupInst_setPosFields_self, hr1] at hr2
        obtain rfl := Option.some_inj.mp hr2
        exact ⟨⟨fun htrue => (option_bool_clash htrue rfl).elim, fun _ => rfl⟩,
          fun _ _ => rfl⟩
      · by_cases hc2 : md.price ≤ x * (1 - STOP_LOSS / 100)
        · rw [stepSymbol_open_sl creds t md sym state rec x _ h1 hip hx rfl hc1 hc2] at hr2
          obtain ⟨r1, hr1, hip1, hep1, htp1⟩ :=
            send_telegram_fst_lookup_self creds t state sym
              (Msg.stopLoss sym md.price x md.curE100 md.curE200) rec h1
          rw [lookupInst_setPosFields_self, hr1] at hr2
          obtain rfl := Option.some_inj.mp hr2
          exact ⟨⟨fun htrue => (option_bool_clash htrue rfl).elim, fun _ => rfl⟩,
            fun _ _ => rfl⟩
        · by_cases hc3 : (md.prevE100 < md.prevE200 ∧ md.curE100 > md.curE200) ∧
              rec.take_profit ≠ some UPGRADED_TP
          · rw [stepSymbol_open_upgrade creds t md sym state rec x _ h1 hip hx rfl hc1 hc2
              hc3.1 hc3.2] at hr2
            have hsetTP : lookupInst (setTP state sym UPGRADED_TP).entries sym = some { rec with take_profit := some UPGRADED_TP } := by
              rw [lookupInst_setTP_self, h1]
              rfl
            obtain ⟨r1, hr1, hip1, hep1, htp1⟩ :=
              send_telegram_fst_lookup_self creds t (setTP state sym UPGRADED_TP) sym
                (Msg.upgrade sym) _ hsetTP
            rw [hr1] at hr2
            obtain rfl := Option.some_inj.mp hr2
            have hip1L : r1.in_position = rec.in_position := hip1
            have hep1L : r1.entry_price = rec.entry_price := hep1
            refine ⟨⟨fun _ => ⟨x, hep1L.trans hx⟩,
              fun hfalse => (option_bool_clash (hip1L.trans hip) hfalse).elim⟩,
              fun _ hfalse => (option_bool_clash (hip1L.trans hip) hfalse).elim⟩
          · have hc3a : ¬(md.prevE100 < md.prevE200 ∧ md.curE100 > md.curE200) ∨
                rec.take_profit = some UPGRADED_TP := by
              by_cases hcr : md.prevE100 < md.prevE200 ∧ md.curE100 > md.curE200
              · right
                by_contra hne
                exact hc3 ⟨hcr, hne⟩
              · exact Or.inl hcr
            rw [stepSymbol_open_hold creds t md sym state rec x _ h1 hip hx rfl hc1 hc2 hc3a,
              h1] at hr2
            obtain rfl := Option.some_inj.mp hr2
            exact ⟨hinv, fun _ hfalse => (option_bool_clash hip hfalse).elim⟩

theorem C3_invariant_preserved_witness :
    posInv defaultInst ∧
    (defaultInst.in_position = some true → defaultInst.in_position = some false →
      defaultInst.take_profit = some TAKE_PROFIT) := by
  have hinv : posInv defaultInst :=
    ⟨fun h => Bool.noConfusion (Option.some_inj.mp h), fun _ => rfl⟩
  have hstep : stepSymbol false 0 mdQuiet "Q" (stateWith "Q" defaultInst) =
      (stateWith "Q" defaultInst, []) :=
    stepSymbol_flat_nocross false 0 mdQuiet "Q" (stateWith "Q" defaultInst) defaultInst
      rfl rfl (by norm_num [mdQuiet])
  have hlook : lookupInst (stepSymbol false 0 mdQuiet "Q"
      (stateWith "Q" defaultInst)).fst.entries "Q" = some defaultInst := by
    rw [hstep]
    rfl
  exact C3_invariant_preserved false 0 mdQuiet "Q" (stateWith "Q" defaultInst) defaultInst
    rfl hinv defaultInst hlook

end TrendBot

namespace TrendBot

theorem openUpg_step (creds : Bool) (t : Int) (md : MarketData) (sym : String)
    (state : BotState) (h : openUpg state sym)
    (h2 : openAt (stepSymbol creds t md sym state).fst sym) :
    openUpg (stepSymbol creds t md sym state).fst sym := by
  obtain ⟨hopen, hupg⟩ := h
  cases hlook : lookupInst state.entries sym with
  | none => rw [hlook] at hopen; cases hopen
  | some rec =>
    rw [hlook] at hopen hupg
    have hip : rec.in_position = some true := hopen
    have htp : rec.take_profit = some UPGRADED_TP := hupg
    cases hep : rec.entry_price with
    | none =>
      rw [stepSymbol_open_no_entry creds t md sym state rec hlook hip (Or.inl hep)]
      exact ⟨by rw [hlook]; exact hopen, by rw [hlook]; exact hupg⟩
    | some inner =>
      cases inner with
      | none =>
        rw [stepSymbol_open_no_entry creds t md sym state rec hlook hip (Or.inr hep)]
        exact ⟨by rw [hlook]; exact hopen, by rw [hlook]; exact hupg⟩
      | some entry =>
        by_cases hc1 : md.price ≥ entry * (1 + (rec.take_profit.getD TAKE_PROFIT) / 100)
        · exfalso
          rw [stepSymbol_open_tp creds t md sym state rec entry _ hlook hip hep rfl hc1] at h2
          unfold openAt at h2
          obtain ⟨r1, hr1, hip1, _, _⟩ :=
            send_telegram_fst_lookup_self creds t state sym
              (Msg.takeProfit sym (rec.take_profit.getD TAKE_PROFIT) md.price entry) rec hlook
          rw [lookupInst_setPosFields_self, hr1] at h2
          exact option_bool_clash h2 rfl
        · by_cases hc2 : md.price ≤ entry * (1 - STOP_LOSS / 100)
          · exfalso
            rw [stepSymbol_open_sl creds t md sym state rec entry _ hlook hip hep rfl
              hc1 hc2] at h2
            unfold openAt at h2
            obtain ⟨r1, hr1, hip1, _, _⟩ :=
              send_telegram_fst_lookup_self creds t state sym
                (Msg.stopLoss sym md.price entry md.curE100 md.curE200) rec hlook
            rw [lookupInst_setPosFields_self, hr1] at h2
            exact option_bool_clash h2 rfl
          · rw [stepSymbol_open_hold creds t md sym state rec entry _ hlook hip hep rfl
              hc1 hc2 (Or.inr htp)]
            exact ⟨by rw [hlook]; exact hopen, by rw [hlook]; exact hupg⟩

/-- Claim C6: the take-profit upgrade fires only on a strict upward daily
trend crossover while the stored target differs from the upgraded one, it
sets the target to the upgraded value, and the upgrade is one-way: as long
as the position stays open across any sequence of evaluation cycles, the
target never returns to the base value. -/
theorem C6_upgrade_monotonic :
    (∀ (creds : Bool) (t : Int) (md : MarketData) (sym : String) (state : BotState)
      (rec : PInst) (entry : ℚ),
      lookupInst state.entries sym = some rec →
      rec.in_position = some true →
      rec.entry_price = some (some entry) →
      ¬(md.price ≥ entry * (1 + (rec.take_profit.getD TAKE_PROFIT) / 100)) →
      ¬(md.price ≤ entry * (1 - STOP_LOSS / 100)) →
      (((md.prevE100 < md.prevE200 ∧ md.curE100 > md.curE200) ∧
          rec.take_profit ≠ some UPGRADED_TP →
        ∃ r2, lookupInst (stepSymbol creds t md sym state).fst.entries sym = some r2 ∧
          r2.take_profit = some UPGRADED_TP ∧ r2.in_position = rec.in_position ∧
          r2.entry_price = rec.entry_price) ∧
       (¬((md.prevE100 < md.prevE200 ∧ md.curE100 > md.curE200) ∧
          rec.take_profit ≠ some UPGRADED_TP) →
        stepSymbol creds t md sym state = (state, [])))) ∧
    (∀ (sym : String) (cycles : List (Bool × Int × MarketData)) (state : BotState),
      openUpg state sym →
      (∀ k, openAt (stepMany sym (cycles.take k) state) sym) →
      openUpg (stepMany sym cycles state) sym) := by
  constructor
  · intro creds t md sym state rec entry h1 h2 h3 hc1 hc2
    constructor
    · intro ⟨hcross, hne⟩
      rw [stepSymbol_open_upgrade creds t md sym state rec entry _ h1 h2 h3 rfl hc1 hc2
        hcross hne]
      have hsetTP : lookupInst (setTP state sym UPGRADED_TP).entries sym = some { rec with take_profit := some UPGRADED_TP } := by
        rw [lookupInst_setTP_self, h1]
        rfl
      obtain ⟨r2, hr2, hip1, hep1, htp1⟩ :=
        send_telegram_fst_lookup_self creds t (setTP state sym UPGRADED_TP) sym
          (Msg.upgrade sym) _ hsetTP
      exact ⟨r2, hr2, htp1, hip1, hep1⟩
    · intro hno
      have hc3a : ¬(md.prevE100 < md.prevE200 ∧ md.curE100 > md.curE200) ∨
          rec.take_profit = some UPGRADED_TP := by
        by_cases hcr : md.prevE100 < md.prevE200 ∧ md.curE100 > md.curE200
        · right
          by_contra hne
          exact hno ⟨hcr, hne⟩
        · exact Or.inl hcr
      exact stepSymbol_open_hold creds t md sym state rec entry _ h1 h2 h3 rfl hc1 hc2 hc3a
  · intro sym cycles
    induction cycles with
    | nil => intro state h _; exact h
    | cons c rest ih =>
      intro state h hopen
      have h1 : openAt (stepSymbol c.fst c.snd.fst c.snd.snd sym state).fst sym := by
        have hk := hopen 1
        simpa [stepMany] using hk
      have hstep : openUpg (stepSymbol c.fst c.snd.fst c.snd.snd sym state).fst sym :=
        openUpg_step c.fst c.snd.fst c.snd.snd sym state h h1
      have hrest : ∀ k,
          openAt (stepMany sym (rest.take k)
            (stepSymbol c.fst c.snd.fst c.snd.snd sym state).fst) sym := by
        intro k
        have hk := hopen (k + 1)
        simpa [stepMany, List.take_succ_cons] using hk
      simpa [stepMany] using ih _ hstep hrest

theorem C6_upgrade_monotonic_witness :
    openUpg (stepMany "A" [(false, (0 : Int), mdPrice 100)]
      (stateWith "A" (openRec 100 UPGRADED_TP))) "A" := by
  apply C6_upgrade_monotonic.2
  · exact ⟨rfl, rfl⟩
  · intro k
    cases k with
    | zero => exact rfl
    | succ n =>
      have hhold := stepSymbol_open_hold false 0 (mdPrice 100) "A"
        (stateWith "A" (openRec 100 UPGRADED_TP)) (openRec 100 UPGRADED_TP) 100
        UPGRADED_TP rfl rfl rfl rfl (by norm_num [mdPrice, UPGRADED_TP, TAKE_PROFIT])
        (by norm_num [mdPrice, STOP_LOSS]) (Or.inl (by norm_num [mdPrice]))
      have htake : ([(false, (0 : Int), mdPrice 100)].take (n + 1)) =
          [(false, (0 : Int), mdPrice 100)] := by
        simp
      rw [htake]
      show openAt (stepMany "A" [(false, (0 : Int), mdPrice 100)]
        (stateWith "A" (openRec 100 UPGRADED_TP))) "A"
      have hsm : stepMany "A" [(false, (0 : Int), mdPrice 100)]
          (stateWith "A" (openRec 100 UPGRADED_TP)) =
          (stepSymbol false 0 (mdPrice 100) "A"
            (stateWith "A" (openRec 100 UPGRADED_TP))).fst := rfl
      rw [hsm, hhold]
      exact rfl

end TrendBot

namespace TrendBot

theorem lookupInst_fillAssetRecords (l : List (String × PInst)) (a : String) :
    lookupInst (fillAssetRecords l) a =
      (lookupInst l a).map (fun r => if a ∈ ASSETS then fillInstFields r else r) := by
  induction l with
  | nil => simp [fillAssetRecords, lookupInst]
  | cons p rest ih =>
    obtain ⟨k, r⟩ := p
    by_cases hk : k ∈ ASSETS
    · simp only [fillAssetRecords, if_pos hk]
      by_cases hka : k = a
      · subst hka
        simp [lookupInst, hk]
      · simp [lookupInst, hka, ih]
    · simp only [fillAssetRecords, if_neg hk]
      by_cases hka : k = a
      · subst hka
        simp [lookupInst, hk]
      · simp [lookupInst, hka, ih]

theorem fillInstFields_of_isFull (r : PInst) (h : isFull r = true) : fillInstFields r = r := by
  obtain ⟨ip, ep, tp, lm⟩ := r
  cases ip <;> cases ep <;> cases tp <;> cases lm <;> simp_all [isFull, fillInstFields]

theorem fillAssetRecords_of_full (l : List (String × PInst))
    (h : ∀ p ∈ l, isFull p.snd = true) : fillAssetRecords l = l := by
  induction l with
  | nil => rfl
  | cons p rest ih =>
    obtain ⟨k, r⟩ := p
    have hr : isFull r = true := h (k, r) (List.mem_cons_self _ _)
    have hrest := ih (fun q hq => h q (List.mem_cons_of_mem _ hq))
    by_cases hk : k ∈ ASSETS
    · simp [fillAssetRecords, hk, fillInstFields_of_isFull r hr, hrest]
    · simp [fillAssetRecords, hk, hrest]

theorem missing_filter_nil (doc : BotState)
    (h : ∀ a ∈ ASSETS, (lookupInst doc.entries a).isSome = true) :
    ASSETS.filter (fun a => lookupInst doc.entries a = none) = [] := by
  rw [List.filter_eq_nil_iff]
  intro a ha
  have hs := h a ha
  cases hl : lookupInst doc.entries a with
  | none => rw [hl] at hs; cases hs
  | some r => simp [hl]

/-- Claim C5 counterexample: on the corrupt-file path `load_state` returns
the bare default dict, whose `global_last_msg` key is absent — not present
with value null as the claim asserts. -/
theorem C5_counterexample_global_absent :
    (load_state FileStatus.corrupt).global_last_msg = none ∧
    ¬(load_state FileStatus.corrupt).global_last_msg = some none := by
  exact ⟨rfl, fun h => Option.noConfusion h⟩

/-- Claim C5 (amended): `load_state` returns the pristine default snapshot
(all configured instruments with default records) on both the missing-file
and corrupt-file paths, but with the `global_last_msg` key absent there;
on the successful-parse path it adds every missing configured instrument
with full defaults, fills missing fields of present instrument records
with their defaults, and defaults a missing global record to null. -/
theorem C5_load_default_fill :
    ((load_state FileStatus.missing = defaultState ∧
      load_state FileStatus.corrupt = defaultState ∧
      defaultState.global_last_msg = none) ∧
     (∀ a ∈ ASSETS, lookupInst defaultState.entries a = some defaultInst)) ∧
    (∀ doc : BotState,
      (load_state (FileStatus.ok doc)).global_last_msg =
        some (doc.global_last_msg.getD none) ∧
      (∀ a ∈ ASSETS, lookupInst doc.entries a = none →
        lookupInst (load_state (FileStatus.ok doc)).entries a = some defaultInst) ∧
      (∀ a r, a ∈ ASSETS → lookupInst doc.entries a = some r →
        lookupInst (load_state (FileStatus.ok doc)).entries a =
          some (fillInstFields r))) := by
  refine ⟨⟨⟨rfl, rfl, rfl⟩, ?_⟩, ?_⟩
  · intro a ha
    exact lookupInst_map_const_mem ASSETS defaultInst a ha
  · intro doc
    refine ⟨rfl, ?_, ?_⟩
    · intro a ha hnone
      have hfa : lookupInst (fillAssetRecords doc.entries) a = none := by
        rw [lookupInst_fillAssetRecords, hnone]
        rfl
      show lookupInst (mergeLoaded doc).entries a = some defaultInst
      unfold mergeLoaded
      rw [lookupInst_append, hfa]
      have hmem : a ∈ ASSETS.filter (fun a => lookupInst doc.entries a = none) :=
        List.mem_filter.mpr ⟨ha, by simp [hnone]⟩
      exact lookupInst_map_const_mem _ defaultInst a hmem
    · intro a r ha hsome
      have hfa : lookupInst (fillAssetRecords doc.entries) a =
          some (fillInstFields r) := by
        rw [lookupInst_fillAssetRecords, hsome]
        simp [ha]
      show lookupInst (mergeLoaded doc).entries a = some (fillInstFields r)
      unfold mergeLoaded
      rw [lookupInst_append, hfa]

theorem C5_load_default_fill_witness :
    lookupInst (load_state (FileStatus.ok stateAB)).entries "SOL-USD" = some defaultInst :=
  ((C5_load_default_fill.2 stateAB).2.1) "SOL-USD" (by decide) rfl

/-- Claim C9: saving a well-formed snapshot (every record fully populated,
every configured asset present, global record present) and loading it back
returns exactly the snapshot that was saved. -/
theorem C9_roundtrip :
    ∀ (s : BotState) (fs : FileSys),
      wellFormed s = true → loadFromFS (save_state s fs) = s := by
  intro s fs hwf
  have hload : loadFromFS (save_state s fs) = mergeLoaded s := rfl
  rw [hload]
  unfold wellFormed at hwf
  simp only [Bool.and_eq_true, List.all_eq_true] at hwf
  obtain ⟨⟨hfull, hassets⟩, hglob⟩ := hwf
  unfold mergeLoaded
  have h1 : fillAssetRecords s.entries = s.entries :=
    fillAssetRecords_of_full s.entries (fun p hp => hfull p hp)
  have h2 : ASSETS.filter (fun a => lookupInst s.entries a = none) = [] :=
    missing_filter_nil s (fun a ha => hassets a ha)
  rw [h1, h2]
  obtain ⟨entries, glob⟩ := s
  cases glob with
  | none => cases hglob
  | some g => simp

theorem C9_roundtrip_witness :
    wellFormed fullDefaultState = true ∧
    loadFromFS (save_state fullDefaultState emptyFS) = fullDefaultState := by
  have hwf : wellFormed fullDefaultState = true := by
    unfold wellFormed
    simp only [Bool.and_eq_true, List.all_eq_true]
    refine ⟨⟨?_, ?_⟩, rfl⟩
    · intro p hp
      obtain ⟨a, ha, rfl⟩ := List.mem_map.mp hp
      rfl
    · intro a ha
      show (lookupInst (ASSETS.map (fun s => (s, defaultInst))) a).isSome = true
      rw [lookupInst_map_const_mem ASSETS defaultInst a ha]
      rfl
  exact ⟨hwf, C9_roundtrip fullDefaultState emptyFS hwf⟩

end TrendBot

namespace TrendBot

theorem stepSymbol_events (creds : Bool) (t : Int) (md : MarketData) (sym : String)
    (state : BotState) :
    (stepSymbol creds t md sym state).snd = [] ∨
    ∃ m, (stepSymbol creds t md sym state).snd = [Event.save, Event.send sym m] := by
  cases hlook : lookupInst state.entries sym with
  | none =>
    rw [stepSymbol_no_record creds t md sym state hlook]
    exact Or.inl rfl
  | some rec =>
    cases hip : rec.in_position with
    | none =>
      rw [stepSymbol_no_in_position creds t md sym state rec hlook hip]
      exact Or.inl rfl
    | some inPos =>
      cases inPos with
      | false =>
        by_cases hc : md.prevShort < md.prevLong ∧ md.curShort > md.curLong
        · rw [stepSymbol_flat_cross creds t md sym state rec hlook hip hc]
          rcases send_telegram_events creds t
              (setPosFields state sym true (some md.price) TAKE_PROFIT) sym
              (Msg.entrySignal sym md.price md.curE100 md.curE200) with h | h
          · exact Or.inl h
          · exact Or.inr ⟨_, h⟩
        · rw [stepSymbol_flat_nocross creds t md sym state rec hlook hip hc]
          exact Or.inl rfl
      | true =>
        cases hep : rec.entry_price with
        | none =>
          rw [stepSymbol_open_no_entry creds t md sym state rec hlook hip (Or.inl hep)]
          exact Or.inl rfl
        | some inner =>
          cases inner with
          | none =>
            rw [stepSymbol_open_no_entry creds t md sym state rec hlook hip (Or.inr hep)]
            exact Or.inl rfl
          | some entry =>
            by_cases hc1 : md.price ≥ entry * (1 + (rec.take_profit.getD TAKE_PROFIT) / 100)
            · rw [stepSymbol_open_tp creds t md sym state rec entry _ hlook hip hep rfl hc1]
              rcases send_telegram_events creds t state sym
                  (Msg.takeProfit sym (rec.take_profit.getD TAKE_PROFIT) md.price entry)
                  with h | h
              · exact Or.inl h
              · exact Or.inr ⟨_, h⟩
            · by_cases hc2 : md.price ≤ entry * (1 - STOP_LOSS / 100)
              · rw [stepSymbol_open_sl creds t md sym state rec entry _ hlook hip hep rfl
                  hc1 hc2]
                rcases send_telegram_events creds t state sym
                    (Msg.stopLoss sym md.price entry md.curE100 md.curE200) with h | h
                · exact Or.inl h
                · exact Or.inr ⟨_, h⟩
              · by_cases hc3 : (md.prevE100 < md.prevE200 ∧ md.curE100 > md.curE200) ∧
                    rec.take_profit ≠ some UPGRADED_TP
                · rw [stepSymbol_open_upgrade creds t md sym state rec entry _ hlook hip hep
                    rfl hc1 hc2 hc3.1 hc3.2]
                  rcases send_telegram_events creds t (setTP state sym UPGRADED_TP) sym
                      (Msg.upgrade sym) with h | h
                  · exact Or.inl h
                  · exact Or.inr ⟨_, h⟩
                · have hc3a : ¬(md.prevE100 < md.prevE200 ∧ md.curE100 > md.curE200) ∨
                      rec.take_profit = some UPGRADED_TP := by
                    by_cases hcr : md.prevE100 < md.prevE200 ∧ md.curE100 > md.curE200
                    · right
                      by_contra hne
                      exact hc3 ⟨hcr, hne⟩
                    · exact Or.inl hcr
                  rw [stepSymbol_open_hold creds t md sym state rec entry _ hlook hip hep rfl
                    hc1 hc2 hc3a]
                  exact Or.inl rfl

theorem runAssets_traces (creds : Bool) (t : Int) (data : String → Option MarketData) :
    ∀ (l : List String) (state : BotState),
      ∀ p ∈ (runAssets creds t data l state).snd,
        p.snd = [] ∨ ∃ m, p.snd = [Event.save, Event.send p.fst m] := by
  intro l
  induction l with
  | nil => intro state p hp; simp [runAssets] at hp
  | cons sym rest ih =>
    intro state p hp
    unfold runAssets at hp
    cases hd : data sym with
    | none =>
      rw [hd] at hp
      simp only [List.mem_cons] at hp
      rcases hp with h | h
      · subst h
        exact Or.inl rfl
      · exact ih _ p h
    | some md =>
      rw [hd] at hp
      simp only [List.mem_cons] at hp
      rcases hp with h | h
      · subst h
        exact stepSymbol_events creds t md sym state
      · exact ih _ p h

theorem runAssets_quiet (creds : Bool) (t : Int) :
    ∀ (l : List String) (state : BotState),
      (∀ sym ∈ l, ∃ rec, lookupInst state.entries sym = some rec ∧
        rec.in_position = some false) →
      runAssets creds t (fun _ => some mdQuiet) l state =
        (state, l.map (fun sym => (sym, []))) := by
  intro l
  induction l with
  | nil => intro state _; rfl
  | cons sym rest ih =>
    intro state hflat
    obtain ⟨rec, hrec, hip⟩ := hflat sym (List.mem_cons_self _ _)
    have hstep : stepSymbol creds t mdQuiet sym state = (state, []) :=
      stepSymbol_flat_nocross creds t mdQuiet sym state rec hrec hip
        (by norm_num [mdQuiet])
    have hrest := ih state (fun q hq => hflat q (List.mem_cons_of_mem _ hq))
    simp [runAssets, hstep, hrest]

/-- Claim C7 counterexample: a cycle in which no instrument produces a
signal (default FLAT state, flat market data) records no `save_state`
invocation inside any instrument's processing — the only save is the one
at cycle end — contradicting the claim that save is invoked after each
instrument's processing. -/
theorem C7_counterexample_no_save_per_instrument :
    ¬(∀ p ∈ (check_signals false 0 (fun _ => some mdQuiet)
        FileStatus.missing).instrTraces, Event.save ∈ p.snd) := by
  intro hall
  have hflat : ∀ sym ∈ ASSETS, ∃ rec,
      lookupInst (load_state FileStatus.missing).entries sym = some rec ∧
      rec.in_position = some false := by
    intro sym hsym
    refine ⟨defaultInst, ?_, rfl⟩
    exact lookupInst_map_const_mem ASSETS defaultInst sym hsym
  have hrun := runAssets_quiet false 0 ASSETS (load_state FileStatus.missing) hflat
  have htr : (check_signals false 0 (fun _ => some mdQuiet)
      FileStatus.missing).instrTraces = ASSETS.map (fun sym => (sym, [])) := by
    simp [check_signals, hrun]
  have hmem : ("BTC-USD", ([] : List Event)) ∈
      (check_signals false 0 (fun _ => some mdQuiet) FileStatus.missing).instrTraces := by
    rw [htr]
    exact List.mem_map.mpr ⟨"BTC-USD", by decide, rfl⟩
  have := hall _ hmem
  simp at this

/-- Claim C7 (amended): within a cycle, `check_signals` invokes
`save_state` exactly once at cycle end; inside an instrument's processing
a save happens only as part of an actual notification send (`mark_sent`
saves just before the message is posted), so an instrument with no send
contributes no save, and one with a send contributes exactly one. -/
theorem C7_save_schedule :
    ∀ (creds : Bool) (t : Int) (data : String → Option MarketData) (file : FileStatus),
      (check_signals creds t data file).endEvents = [Event.save] ∧
      ∀ p ∈ (check_signals creds t data file).instrTraces,
        p.snd = [] ∨ ∃ m, p.snd = [Event.save, Event.send p.fst m] := by
  intro creds t data file
  refine ⟨rfl, ?_⟩
  intro p hp
  exact runAssets_traces creds t data ASSETS (load_state file) p hp

theorem C7_save_schedule_witness :
    ("BTC-USD", ([] : List Event)).snd = [] ∨
    ∃ m, ("BTC-USD", ([] : List Event)).snd =
      [Event.save, Event.send ("BTC-USD", ([] : List Event)).fst m] := by
  apply (C7_save_schedule false 0 (fun _ => some mdQuiet) FileStatus.missing).2
  have hflat : ∀ sym ∈ ASSETS, ∃ rec,
      lookupInst (load_state FileStatus.missing).entries sym = some rec ∧
      rec.in_position = some false := by
    intro sym hsym
    refine ⟨defaultInst, ?_, rfl⟩
    exact lookupInst_map_const_mem ASSETS defaultInst sym hsym
  have hrun := runAssets_quiet false 0 ASSETS (load_state FileStatus.missing) hflat
  have htr : (check_signals false 0 (fun _ => some mdQuiet)
      FileStatus.missing).instrTraces = ASSETS.map (fun sym => (sym, [])) := by
    simp [check_signals, hrun]
  rw [htr]
  exact List.mem_map.mpr ⟨"BTC-USD", by decide, rfl⟩

end TrendBot
